import Mathlib

/-!
Verification of the SolarAssistant dashboard core: charger control loop,
battery alert engine, historical-data archival, peak-discharge monitor,
power-balance computation and daily-stats persistence, shallowly embedded
from the server source.  Times are milliseconds since epoch (`Nat`);
JavaScript numbers that flow through `parseFloat` are modelled as
`Option ℚ` (`none` = NaN).  JavaScript `Number` subtraction guarded by a
`< bound` comparison is modelled with truncated `Nat` subtraction, which
agrees with the source on every branch taken (a negative difference and a
truncated-to-zero difference both satisfy `< bound`).
-/

namespace SolarAssistant

/-- Kinds of outbound email messages the server can send. -/
inductive EmailKind
  | chargerOnOk
  | chargerOnFailed
  | chargerOffOk
  | chargerOffFailed
  | chargerError
  | alertLow
  | alertRecovered
  | peakDischarge
deriving DecidableEq

/-- Observable effects of one evaluation, in source order: the awaited
IFTTT webhook fetch, mutations of `chargerState` / `alertState`, an
`alertHistory.unshift`, and an outbound email. -/
inductive Event
  | fetchTrigger (eventId : String)
  | commitCharger
  | commitAlertState
  | historyAppend
  | email (kind : EmailKind)
deriving DecidableEq

/-- `alertSettings.chargerControl` (the webhook key is modelled only by
its presence, which is all the guard checks). -/
structure ChargerSettings where
  enabled : Bool
  hasWebhookKey : Bool
  lowThreshold : ℚ
  highThreshold : ℚ
  maxTemp : ℚ
deriving DecidableEq

/-- `chargerState` as persisted in `daily_stats.json`. -/
structure ChargerState where
  isOn : Bool
  lastAction : Option String
  lastActionTime : Option Nat
  lastSOC : Option ℚ
deriving DecidableEq

/-- The module-level initial `chargerState`. -/
def initialChargerState : ChargerState := ⟨false, none, none, none⟩

/-- Outcome of the awaited `fetch` to the IFTTT webhook: `ok` is
`response.ok`, `httpError` a non-success status, `transportError` a
thrown exception. -/
inductive FetchOutcome
  | ok
  | httpError (status : Nat)
  | transportError
deriving DecidableEq

/-- `!isNaN(batteryTemp) && batteryTemp > maxTemp`. -/
def tempTooHigh (s : ChargerSettings) (batteryTemp : Option ℚ) : Bool :=
  match batteryTemp with
  | some t => decide (s.maxTemp < t)
  | none => false

/-- `chargerState.lastActionTime && (now - chargerState.lastActionTime) < 300000`
(a numeric JavaScript value is truthy exactly when nonzero). -/
def cooldownActive (st : ChargerState) (now : Nat) : Bool :=
  match st.lastActionTime with
  | some t => decide (t ≠ 0) && decide (now - t < 300000)
  | none => false

/-- `controlBatteryCharger(soc)`: guards (feature flag + key, NaN soc,
temperature interlock, cooldown) then the hysteresis transitions, with
state committed only on `response.ok`.  Returned are the new
`chargerState` and the list of observable effects in source order. -/
def controlBatteryCharger (s : ChargerSettings) (st : ChargerState)
    (soc batteryTemp : Option ℚ) (now : Nat) (fetch : FetchOutcome) :
    ChargerState × List Event :=
  if (s.enabled && s.hasWebhookKey) = false then (st, [])
  else
    match soc with
    | none => (st, [])
    | some socValue =>
      if tempTooHigh s batteryTemp then (st, [])
      else if cooldownActive st now then (st, [])
      else if socValue ≤ s.lowThreshold ∧ st.isOn = false then
        match fetch with
        | .ok =>
            (⟨true, some "ON", some now, some socValue⟩,
             [.fetchTrigger "battery_low", .commitCharger, .email .chargerOnOk])
        | .httpError _ => (st, [.fetchTrigger "battery_low", .email .chargerOnFailed])
        | .transportError => (st, [.fetchTrigger "battery_low", .email .chargerError])
      else if s.highThreshold ≤ socValue ∧ st.isOn = true then
        match fetch with
        | .ok =>
            (⟨false, some "OFF", some now, some socValue⟩,
             [.fetchTrigger "battery_charged", .commitCharger, .email .chargerOffOk])
        | .httpError _ => (st, [.fetchTrigger "battery_charged", .email .chargerOffFailed])
        | .transportError => (st, [.fetchTrigger "battery_charged", .email .chargerError])
      else (st, [])

/-- One SOC sample together with the ambient cached temperature, the wall
clock at evaluation, and the outcome the webhook would return. -/
structure ChargerInput where
  soc : Option ℚ
  batteryTemp : Option ℚ
  now : Nat
  fetch : FetchOutcome
deriving DecidableEq

/-- Feed a list of SOC samples through the control loop, collecting the
per-evaluation effect traces. -/
def runCharger (s : ChargerSettings) (st : ChargerState) :
    List ChargerInput → ChargerState × List (ChargerInput × List Event)
  | [] => (st, [])
  | inp :: rest =>
      let r := controlBatteryCharger s st inp.soc inp.batteryTemp inp.now inp.fetch
      let rr := runCharger s r.1 rest
      (rr.1, (inp, r.2) :: rr.2)

/-- Wall-clock times of the evaluations that committed a state
transition (mutated `chargerState`). -/
def commitTimes (steps : List (ChargerInput × List Event)) : List Nat :=
  steps.filterMap fun p => if Event.commitCharger ∈ p.2 then some p.1.now else none

/-- An email kind reporting a charger-control failure. -/
def failureEmail : EmailKind → Bool
  | .chargerOnFailed => true
  | .chargerOffFailed => true
  | .chargerError => true
  | _ => false

/-- The battery-alert fields of `alertSettings`. -/
structure AlertSettings where
  enabled : Bool
  lowThreshold : ℚ
  highThreshold : ℚ
deriving DecidableEq

/-- `alertState`. -/
structure AlertState where
  belowThreshold : Bool
  lastAlertTime : Option Nat
  lastAlertType : Option String
deriving DecidableEq

/-- `checkBatteryAlerts(soc)`: two sequential edge checks, each of which
mutates `alertState`, unshifts onto `alertHistory` and then awaits
`sendEmailAlert`, in that source order. -/
def checkBatteryAlerts (s : AlertSettings) (ast : AlertState) (soc : Option ℚ)
    (now : Nat) : AlertState × List Event :=
  if s.enabled = false then (ast, [])
  else
    match soc with
    | none => (ast, [])
    | some socValue =>
      let r1 : AlertState × List Event :=
        if ast.belowThreshold = false ∧ socValue < s.lowThreshold then
          (⟨true, some now, some "low"⟩,
           [Event.commitAlertState, Event.historyAppend, Event.email .alertLow])
        else (ast, [])
      let r2 : AlertState × List Event :=
        if r1.1.belowThreshold = true ∧ s.highThreshold < socValue then
          (⟨false, some now, some "recovered"⟩,
           [Event.commitAlertState, Event.historyAppend, Event.email .alertRecovered])
        else (r1.1, [])
      (r2.1, r1.2 ++ r2.2)

/-- One SOC sample reaching the alert engine. -/
structure AlertInput where
  soc : Option ℚ
  now : Nat
deriving DecidableEq

/-- Feed a list of SOC samples through the alert engine, collecting the
per-evaluation effect traces. -/
def runAlerts (s : AlertSettings) (ast : AlertState) :
    List AlertInput → AlertState × List (AlertInput × List Event)
  | [] => (ast, [])
  | inp :: rest =>
      let r := checkBatteryAlerts s ast inp.soc inp.now
      let rr := runAlerts s r.1 rest
      (rr.1, (inp, r.2) :: rr.2)

/-- The low/recovered notifications occurring in an effect trace. -/
def alertEmailKinds (evs : List Event) : List EmailKind :=
  evs.filterMap fun e =>
    match e with
    | .email .alertLow => some .alertLow
    | .email .alertRecovered => some .alertRecovered
    | _ => none

/-- The alert emails a correct hysteresis machine may emit from state `b`
(low when not below, recovered when below), ending in state `b2`. -/
def altFrom : Bool → List EmailKind → Bool → Prop
  | b, [], b2 => b2 = b
  | b, k :: rest, b2 =>
      k = (if b then EmailKind.alertRecovered else EmailKind.alertLow) ∧
      altFrom (!b) rest b2

/-- Spec-side reading of the claim that every alert-state commit happens
only after some outbound email result is known: scan the trace and demand
an email event strictly before each `commitAlertState`. -/
def alertCommitAfterEmailScan : Bool → List Event → Bool
  | seen, [] => seen || true
  | seen, Event.commitAlertState :: rest => seen && alertCommitAfterEmailScan seen rest
  | _, Event.email _ :: rest => alertCommitAfterEmailScan true rest
  | seen, _ :: rest => alertCommitAfterEmailScan seen rest

/-- The claim-side property for the alert engine: every committed
`belowThreshold` transition is preceded in the trace by an email event. -/
def alertCommitsAfterEmail (tr : List Event) : Bool :=
  alertCommitAfterEmailScan false tr

/-- Every `chargerState` commit is preceded in the trace by the awaited
actuator webhook fetch. -/
def chargerCommitAfterTriggerScan : Bool → List Event → Bool
  | seen, [] => seen || true
  | seen, Event.commitCharger :: rest => seen && chargerCommitAfterTriggerScan seen rest
  | _, Event.fetchTrigger _ :: rest => chargerCommitAfterTriggerScan true rest
  | seen, _ :: rest => chargerCommitAfterTriggerScan seen rest

/-- The control-loop side of the awaited-before-commit property. -/
def chargerCommitsAfterTrigger (tr : List Event) : Bool :=
  chargerCommitAfterTriggerScan false tr

/-- Every alert email in the trace is preceded by both the `alertState`
commit and the `alertHistory` append (what the source actually does). -/
def alertEmailAfterCommitScan : Bool → Bool → List Event → Bool
  | c, h, [] => c || h || true
  | c, h, Event.email _ :: rest => c && h && alertEmailAfterCommitScan c h rest
  | _, h, Event.commitAlertState :: rest => alertEmailAfterCommitScan true h rest
  | c, _, Event.historyAppend :: rest => alertEmailAfterCommitScan c true rest
  | c, h, _ :: rest => alertEmailAfterCommitScan c h rest

/-- The amended alert-engine property: commits precede the email. -/
def alertEmailAfterCommit (tr : List Event) : Bool :=
  alertEmailAfterCommitScan false false tr

/-- `ARCHIVE_INTERVAL`. -/
def ARCHIVE_INTERVAL : Nat := 60000

/-- `TRACKED_TOPICS`. -/
def TRACKED_TOPICS : List String :=
  ["solar_assistant/inverter_1/pv_power/state",
   "solar_assistant/inverter_1/pv_power_1/state",
   "solar_assistant/inverter_1/pv_power_2/state",
   "solar_assistant/total/battery_state_of_charge/state",
   "solar_assistant/total/battery_power/state",
   "solar_assistant/inverter_1/load_power/state",
   "solar_assistant/battery_1/voltage/state",
   "solar_assistant/battery_2/voltage/state",
   "solar_assistant/battery_3/voltage/state",
   "solar_assistant/battery_1/current/state",
   "solar_assistant/battery_2/current/state",
   "solar_assistant/battery_3/current/state",
   "solar_assistant/battery_1/temperature/state",
   "solar_assistant/battery_2/temperature/state",
   "solar_assistant/battery_3/temperature/state",
   "solar_assistant/battery_1/state_of_charge/state",
   "solar_assistant/battery_2/state_of_charge/state",
   "solar_assistant/battery_3/state_of_charge/state",
   "solar_assistant/battery_1/power/state",
   "solar_assistant/battery_2/power/state",
   "solar_assistant/battery_3/power/state",
   "solar_assistant/total/battery_temperature/state",
   "solar_assistant/inverter_1/battery_current/state"]

/-- One archived `{timestamp, value}` point (the ISO timestamp string is
modelled by its instant in milliseconds, which has the same order). -/
structure Point where
  timestamp : Nat
  value : ℚ
deriving DecidableEq

/-- `historicalData` and `lastArchivedTime`, as total maps with the
source's defaults (`[]` for a missing series, `|| 0` for a missing
watermark). -/
structure ArchiveState where
  historicalData : String → List Point
  lastArchivedTime : String → Nat

/-- The state at module load: empty series, zero watermarks. -/
def initialArchiveState : ArchiveState := ⟨fun _ => [], fun _ => 0⟩

/-- `addHistoricalDataPoint(topic, value, timestamp)`: allow-list check,
wall-clock throttle against the per-topic watermark, numeric parse, then
append / watermark update / ring-buffer eviction.  The returned `Bool`
records whether a point was appended. -/
def addHistoricalDataPoint (st : ArchiveState) (topic : String) (value : Option ℚ)
    (timestamp : Nat) (now : Nat) : ArchiveState × Bool :=
  if topic ∈ TRACKED_TOPICS then
    if now - st.lastArchivedTime topic < ARCHIVE_INTERVAL then (st, false)
    else
      match value with
      | none => (st, false)
      | some numValue =>
        let grown := st.historicalData topic ++ [⟨timestamp, numValue⟩]
        let series := if 10000 < grown.length then grown.tail else grown
        ({ historicalData := Function.update st.historicalData topic series,
           lastArchivedTime := Function.update st.lastArchivedTime topic now }, true)
  else (st, false)

/-- One ingestion event as seen by the archival path: the MQTT topic, the
parsed value, the handler-assigned timestamp, and the wall clock inside
`addHistoricalDataPoint`. -/
structure IngestEvent where
  topic : String
  value : Option ℚ
  timestamp : Nat
  now : Nat
deriving DecidableEq

/-- Feed a list of ingestion events through the archival path, collecting
the events that actually appended a point. -/
def runArchive (st : ArchiveState) :
    List IngestEvent → ArchiveState × List IngestEvent
  | [] => (st, [])
  | e :: rest =>
      let r := addHistoricalDataPoint st e.topic e.value e.timestamp e.now
      let rr := runArchive r.1 rest
      (rr.1, (if r.2 then [e] else []) ++ rr.2)

/-- Wall-clock archive times of the appended points of one topic. -/
def archiveTimes (topic : String) (log : List IngestEvent) : List Nat :=
  (log.filter fun e => e.topic = topic).map IngestEvent.now

/-- `peakDischargeState`. -/
structure PeakState where
  isDischarging : Bool
  dischargeStartTime : Option Nat
  alertSent : Bool
  lastAlertTime : Option Nat
deriving DecidableEq

/-- `getSeasonalPeakHours().peakDuration` as a function of
`new Date().getMonth()` (0-based). -/
def getSeasonalPeakDuration (month : Nat) : ℚ :=
  if 5 ≤ month ∧ month ≤ 7 then 5
  else if (3 ≤ month ∧ month ≤ 4) ∨ (8 ≤ month ∧ month ≤ 9) then 9 / 2
  else 4

/-- `startHour` of the seasonal peak window. -/
def peakStartHour (month : Nat) : ℚ := 12 - getSeasonalPeakDuration month / 2

/-- `endHour` of the seasonal peak window. -/
def peakEndHour (month : Nat) : ℚ := 12 + getSeasonalPeakDuration month / 2

/-- `isWithinPeakHours()`: `currentHour = getHours() + getMinutes()/60`
inside the inclusive seasonal window. -/
def isWithinPeakHours (month hour minute : Nat) : Bool :=
  decide (peakStartHour month ≤ (hour : ℚ) + (minute : ℚ) / 60) &&
  decide ((hour : ℚ) + (minute : ℚ) / 60 ≤ peakEndHour month)

/-- The wall clock as the peak monitor reads it. -/
structure ClockTime where
  month : Nat
  hour : Nat
  minute : Nat
  nowMs : Nat
deriving DecidableEq

/-- `monitorPeakDischarge(batteryPower)`: inside the window and below the
-50 W threshold either start an episode or, once
`Math.floor(duration/60000) ≥ 30` with no alert yet sent for the episode,
send exactly one alert; any other sample with a parseable power resets an
active episode. -/
def monitorPeakDischarge (enabled : Bool) (st : PeakState) (batteryPower : Option ℚ)
    (clock : ClockTime) : PeakState × List Event :=
  if enabled = false then (st, [])
  else
    match batteryPower with
    | none => (st, [])
    | some p =>
      if isWithinPeakHours clock.month clock.hour clock.minute ∧ p < -50 then
        if st.isDischarging = false then
          (⟨true, some clock.nowMs, false, st.lastAlertTime⟩, [])
        else
          if 30 ≤ (clock.nowMs - st.dischargeStartTime.getD 0) / 60000 ∧
              st.alertSent = false then
            (⟨st.isDischarging, st.dischargeStartTime, true, some clock.nowMs⟩,
             [Event.email .peakDischarge, Event.historyAppend])
          else (st, [])
      else
        if st.isDischarging = true then
          (⟨false, none, false, st.lastAlertTime⟩, [])
        else (st, [])

/-- One battery-power sample reaching the peak monitor. -/
structure PeakInput where
  batteryPower : Option ℚ
  clock : ClockTime
deriving DecidableEq

/-- Feed a list of battery-power samples through the peak monitor,
concatenating the effect traces. -/
def runPeak (enabled : Bool) (st : PeakState) :
    List PeakInput → PeakState × List Event
  | [] => (st, [])
  | inp :: rest =>
      let r := monitorPeakDischarge enabled st inp.batteryPower inp.clock
      let rr := runPeak enabled r.1 rest
      (rr.1, r.2 ++ rr.2)

/-- A sample that sustains a discharge episode: parseable power below
-50 W while inside the seasonal peak window. -/
def sustainsEpisode (inp : PeakInput) : Bool :=
  isWithinPeakHours inp.clock.month inp.clock.hour inp.clock.minute &&
  (match inp.batteryPower with
   | some p => decide (p < -50)
   | none => false)

/-- `Math.round` on a finite number. -/
def jsRound (x : ℚ) : ℤ := ⌊x + 1 / 2⌋

/-- `getPowerBalance()`: `'N/A'` (here `none`) unless solar and load
parse; the battery feeds `totalPowerInput` only while the IFTTT charger
state is ON and the battery power is positive. -/
def getPowerBalance (solar load batteryPower : Option ℚ) (chargerIsOn : Bool) :
    Option ℤ :=
  match solar, load with
  | some solarPower, some loadPower =>
      let chargerFeeds : Bool :=
        chargerIsOn && (match batteryPower with
                        | some b => decide (0 < b)
                        | none => false)
      let externalChargerPower : ℚ := if chargerFeeds then batteryPower.getD 0 else 0
      some (jsRound (solarPower + externalChargerPower - loadPower))
  | _, _ => none

/-- The persisted `daily_stats.json` document, restricted to the fields
`loadDailyStats` consults for the charger: the stored `date` string and
the optional embedded `chargerState`. -/
structure SavedDailyStats where
  date : String
  chargerState : Option ChargerState
deriving DecidableEq

/-- `loadDailyStats()` as it acts on `chargerState`: a missing or corrupt
file leaves the current state; a same-day record restores the stored
charger state (spread over the current one); a record from another date
resets the charger state to its defaults. -/
def loadDailyStats (saved : Option SavedDailyStats) (todayString : String)
    (current : ChargerState) : ChargerState :=
  match saved with
  | none => current
  | some savedStats =>
      if savedStats.date = todayString then
        match savedStats.chargerState with
        | some cs => cs
        | none => current
      else ⟨false, none, none, none⟩

/-- Concatenated per-evaluation effect traces of an alert-engine run. -/
def stepTraces (steps : List (AlertInput × List Event)) : List Event :=
  (steps.map Prod.snd).flatten

lemma tempTooHigh_noop (s : ChargerSettings) (st : ChargerState) (soc temp : Option ℚ)
    (now : Nat) (f : FetchOutcome) (h : tempTooHigh s temp = true) :
    controlBatteryCharger s st soc temp now f = (st, []) := by
  unfold controlBatteryCharger
  cases soc <;> simp [h]

lemma cooldown_noop (s : ChargerSettings) (st : ChargerState) (soc temp : Option ℚ)
    (now : Nat) (f : FetchOutcome) (h : cooldownActive st now = true) :
    controlBatteryCharger s st soc temp now f = (st, []) := by
  unfold controlBatteryCharger
  cases soc <;> simp [h]

lemma chargerNoCommit (s : ChargerSettings) (st : ChargerState) (soc temp : Option ℚ)
    (now : Nat) (f : FetchOutcome)
    (h : Event.commitCharger ∉ (controlBatteryCharger s st soc temp now f).2) :
    (controlBatteryCharger s st soc temp now f).1 = st := by
  unfold controlBatteryCharger at h ⊢
  by_cases h1 : (s.enabled && s.hasWebhookKey) = false
  · simp [h1]
  · cases soc with
    | none => simp [h1]
    | some v =>
      by_cases h2 : tempTooHigh s temp = true
      · simp [h1, h2]
      · by_cases h3 : cooldownActive st now = true
        · simp [h1, h2, h3]
        · by_cases h4 : v ≤ s.lowThreshold ∧ st.isOn = false
          · cases f <;> simp_all
          · by_cases h5 : s.highThreshold ≤ v ∧ st.isOn = true
            · cases f <;> simp_all
            · simp [h1, h2, h3, h4, h5]

lemma chargerCommit (s : ChargerSettings) (st : ChargerState) (soc temp : Option ℚ)
    (now : Nat) (f : FetchOutcome)
    (h : Event.commitCharger ∈ (controlBatteryCharger s st soc temp now f).2) :
    (controlBatteryCharger s st soc temp now f).1.lastActionTime = some now ∧
    cooldownActive st now = false := by
  unfold controlBatteryCharger at h ⊢
  by_cases h1 : (s.enabled && s.hasWebhookKey) = false
  · simp [h1] at h
  · cases soc with
    | none => simp [h1] at h
    | some v =>
      by_cases h2 : tempTooHigh s temp = true
      · simp [h1, h2] at h
      · by_cases h3 : cooldownActive st now = true
        · simp [h1, h2, h3] at h
        · by_cases h4 : v ≤ s.lowThreshold ∧ st.isOn = false
          · cases f <;> simp_all
          · by_cases h5 : s.highThreshold ≤ v ∧ st.isOn = true
            · cases f <;> simp_all
            · simp [h1, h2, h3, h4, h5] at h

lemma chargerLowTrigger (s : ChargerSettings) (st : ChargerState) (soc temp : Option ℚ)
    (now : Nat) (f : FetchOutcome)
    (h : Event.fetchTrigger "battery_low" ∈ (controlBatteryCharger s st soc temp now f).2) :
    st.isOn = false := by
  unfold controlBatteryCharger at h
  by_cases h1 : (s.enabled && s.hasWebhookKey) = false
  · simp [h1] at h
  · cases soc with
    | none => simp [h1] at h
    | some v =>
      by_cases h2 : tempTooHigh s temp = true
      · simp [h1, h2] at h
      · by_cases h3 : cooldownActive st now = true
        · simp [h1, h2, h3] at h
        · by_cases h4 : v ≤ s.lowThreshold ∧ st.isOn = false
          · exact h4.2
          · by_cases h5 : s.highThreshold ≤ v ∧ st.isOn = true
            · cases f <;> simp_all
            · simp [h1, h2, h3, h4, h5] at h

lemma chargerOffFlip (s : ChargerSettings) (st : ChargerState) (soc temp : Option ℚ)
    (now : Nat) (f : FetchOutcome)
    (hOn : st.isOn = true)
    (h : (controlBatteryCharger s st soc temp now f).1.isOn = false) :
    ∃ v, soc = some v ∧ s.highThreshold ≤ v := by
  unfold controlBatteryCharger at h
  by_cases h1 : (s.enabled && s.hasWebhookKey) = false
  · simp [h1, hOn] at h
  · cases soc with
    | none => simp [h1, hOn] at h
    | some v =>
      by_cases h2 : tempTooHigh s temp = true
      · simp [h1, h2, hOn] at h
      · by_cases h3 : cooldownActive st now = true
        · simp [h1, h2, h3, hOn] at h
        · by_cases h4 : v ≤ s.lowThreshold ∧ st.isOn = false
          · rw [h4.2] at hOn; exact absurd hOn (by simp)
          · by_cases h5 : s.highThreshold ≤ v ∧ st.isOn = true
            · exact ⟨v, rfl, h5.1⟩
            · have hnv : ¬s.highThreshold ≤ v := fun hv => h5 ⟨hv, hOn⟩
              simp [h1, h2, h3, h4, hnv, hOn] at h

lemma commitTimes_cons (inp : ChargerInput) (evs : List Event)
    (steps : List (ChargerInput × List Event)) :
    commitTimes ((inp, evs) :: steps) =
      if Event.commitCharger ∈ evs then inp.now :: commitTimes steps
      else commitTimes steps := by
  by_cases h : Event.commitCharger ∈ evs <;> simp [commitTimes, h]

/-- Claim C1: whenever the cached battery temperature parses to a number
strictly above `maxTemp`, `controlBatteryCharger` returns without sending
any actuator trigger or any email and with the charger state bit-for-bit
unchanged (an ON state stays ON, an OFF state stays OFF), for every SOC
value, wall clock and webhook outcome. -/
theorem charger_tempInterlock_c1 (s : ChargerSettings) (st : ChargerState)
    (soc temp : Option ℚ) (now : Nat) (f : FetchOutcome) (t : ℚ)
    (htemp : temp = some t) (hhot : s.maxTemp < t) :
    controlBatteryCharger s st soc temp now f = (st, []) := by
  apply tempTooHigh_noop
  rw [htemp]
  unfold tempTooHigh
  simpa using hhot

/-- Witness for C1: a concrete hot-battery sample (temperature 101 over
`maxTemp` 100, SOC 10 under the low threshold, charger OFF) is left
untouched. -/
theorem charger_tempInterlock_c1_witness :
    (some (101 : ℚ) = some (101 : ℚ) ∧ (100 : ℚ) < 101) ∧
      controlBatteryCharger ⟨true, true, 20, 80, 100⟩ initialChargerState
        (some 10) (some 101) 5000 .ok = (initialChargerState, []) :=
  ⟨⟨rfl, by norm_num⟩,
    charger_tempInterlock_c1 ⟨true, true, 20, 80, 100⟩ initialChargerState
      (some 10) (some 101) 5000 .ok 101 rfl (by norm_num)⟩

lemma runCharger_chainAux (s : ChargerSettings) :
    ∀ (inputs : List ChargerInput) (st : ChargerState),
      (∀ inp ∈ inputs, 0 < inp.now) →
      (∀ t, st.lastActionTime = some t → 0 < t) →
      List.Chain' (fun a b => a + 300000 ≤ b)
        (st.lastActionTime.toList ++ commitTimes (runCharger s st inputs).2) := by
  intro inputs
  induction inputs with
  | nil =>
      intro st _ _
      cases st.lastActionTime <;> simp [runCharger, commitTimes]
  | cons inp rest ih =>
      intro st htimes hinv
      have hpos : 0 < inp.now := htimes inp (by simp)
      have htimes' : ∀ i ∈ rest, 0 < i.now := fun i hi => htimes i (by simp [hi])
      simp only [runCharger]
      rw [commitTimes_cons]
      by_cases hc : Event.commitCharger ∈
          (controlBatteryCharger s st inp.soc inp.batteryTemp inp.now inp.fetch).2
      · obtain ⟨hlat, hcool⟩ :=
          chargerCommit s st inp.soc inp.batteryTemp inp.now inp.fetch hc
        have hinv' : ∀ t,
            (controlBatteryCharger s st inp.soc inp.batteryTemp inp.now
              inp.fetch).1.lastActionTime = some t → 0 < t := by
          intro t ht
          rw [hlat] at ht
          cases ht
          exact hpos
        have ihr := ih (controlBatteryCharger s st inp.soc inp.batteryTemp inp.now
          inp.fetch).1 htimes' hinv'
        rw [hlat] at ihr
        simp only [Option.toList] at ihr
        rw [if_pos hc]
        cases hl : st.lastActionTime with
        | none => simpa using ihr
        | some t =>
            have ht0 : 0 < t := hinv t hl
            have hgap : t + 300000 ≤ inp.now := by
              unfold cooldownActive at hcool
              rw [hl] at hcool
              simp only [Bool.and_eq_false_iff, decide_eq_false_iff_not,
                Decidable.not_not] at hcool
              rcases hcool with h0 | hlt
              · omega
              · omega
            simp only [Option.toList, List.singleton_append]
            exact List.chain'_cons.mpr ⟨hgap, by simpa using ihr⟩
      · have hst := chargerNoCommit s st inp.soc inp.batteryTemp inp.now inp.fetch hc
        rw [if_neg hc]
        have ihr := ih (controlBatteryCharger s st inp.soc inp.batteryTemp inp.now
          inp.fetch).1 htimes' (by rw [hst]; exact hinv)
        rw [hst] at ihr
        rw [hst]
        exact ihr

/-- Claim C2: the charger control loop respects the five-minute cooldown.
First conjunct: when `lastActionTime` carries an actual timestamp (all
`Date.now()` values are positive) and less than 300000 ms have elapsed,
the evaluation is a complete no-op.  Second conjunct: over any sample
sequence, even a rapidly oscillating one, the wall-clock times of the
committed ON/OFF transitions are pairwise at least 300000 ms apart. -/
theorem charger_cooldown_c2 :
    (∀ (s : ChargerSettings) (st : ChargerState) (soc temp : Option ℚ)
        (now : Nat) (f : FetchOutcome) (t : Nat),
      st.lastActionTime = some t → 0 < t → now - t < 300000 →
      controlBatteryCharger s st soc temp now f = (st, [])) ∧
    (∀ (s : ChargerSettings) (st : ChargerState) (inputs : List ChargerInput),
      (∀ inp ∈ inputs, 0 < inp.now) →
      (∀ t, st.lastActionTime = some t → 0 < t) →
      List.Chain' (fun a b => a + 300000 ≤ b)
        (commitTimes (runCharger s st inputs).2)) := by
  constructor
  · intro s st soc temp now f t hlat ht0 hlt
    apply cooldown_noop
    unfold cooldownActive
    rw [hlat]
    simp only [Bool.and_eq_true, decide_eq_true_eq]
    omega
  · intro s st inputs htimes hinv
    have h := runCharger_chainAux s inputs st htimes hinv
    cases hl : st.lastActionTime with
    | none => rw [hl] at h; simpa using h
    | some t =>
        rw [hl] at h
        simp only [Option.toList, List.singleton_append] at h
        exact h.tail

/-- Witness for C2: a cooldown-blocked evaluation is a no-op, and an
oscillating three-sample run commits exactly at times 1000 and 302000,
which are 301000 ms apart. -/
theorem charger_cooldown_c2_witness :
    (controlBatteryCharger ⟨true, true, 20, 80, 100⟩
        ⟨true, some "ON", some 1000, some 10⟩ (some 90) none 2000 .ok =
      (⟨true, some "ON", some 1000, some 10⟩, [])) ∧
    List.Chain' (fun a b => a + 300000 ≤ b)
      (commitTimes (runCharger ⟨true, true, 20, 80, 100⟩ initialChargerState
        [⟨some 10, none, 1000, .ok⟩, ⟨some 90, none, 2000, .ok⟩,
         ⟨some 90, none, 302000, .ok⟩]).2) :=
  ⟨charger_cooldown_c2.1 ⟨true, true, 20, 80, 100⟩
      ⟨true, some "ON", some 1000, some 10⟩ (some 90) none 2000 .ok 1000
      rfl (by norm_num) (by norm_num),
    charger_cooldown_c2.2 ⟨true, true, 20, 80, 100⟩ initialChargerState
      [⟨some 10, none, 1000, .ok⟩, ⟨some 90, none, 2000, .ok⟩,
       ⟨some 90, none, 302000, .ok⟩]
      (by decide) (by intro t ht; cases ht)⟩

/-- Claim C3: when the webhook call for a charger transition fails (a
non-success HTTP status or a thrown transport error), the whole charger
state (`isOn`, `lastAction`, `lastActionTime`, `lastSOC`) is left
unchanged, every email emitted is a failure notification (never the
success one), and whenever a trigger was attempted a failure notification
is in fact emitted. -/
theorem charger_failure_c3 (s : ChargerSettings) (st : ChargerState)
    (soc temp : Option ℚ) (now : Nat) (f : FetchOutcome)
    (hf : f = FetchOutcome.transportError ∨ ∃ n, f = FetchOutcome.httpError n) :
    (controlBatteryCharger s st soc temp now f).1 = st ∧
    (∀ k, Event.email k ∈ (controlBatteryCharger s st soc temp now f).2 →
      failureEmail k = true) ∧
    (∀ ev, Event.fetchTrigger ev ∈ (controlBatteryCharger s st soc temp now f).2 →
      ∃ k, Event.email k ∈ (controlBatteryCharger s st soc temp now f).2 ∧
        failureEmail k = true) := by
  unfold controlBatteryCharger
  by_cases h1 : (s.enabled && s.hasWebhookKey) = false
  · simp [h1]
  · cases soc with
    | none => simp [h1]
    | some v =>
      by_cases h2 : tempTooHigh s temp = true
      · simp [h1, h2]
      · by_cases h3 : cooldownActive st now = true
        · simp [h1, h2, h3]
        · by_cases h4 : v ≤ s.lowThreshold ∧ st.isOn = false
          · rcases hf with hf | ⟨n, hf⟩ <;> subst hf <;>
              simp [h1, h2, h3, h4, failureEmail]
          · by_cases h5 : s.highThreshold ≤ v ∧ st.isOn = true
            · rcases hf with hf | ⟨n, hf⟩ <;> subst hf <;>
                simp [h1, h2, h3, h4, h5, failureEmail]
            · simp [h1, h2, h3, h4, h5]

/-- Witness for C3: a concrete ON attempt answered with HTTP 500 leaves
the OFF state untouched and emits a failure notification. -/
theorem charger_failure_c3_witness :
    (controlBatteryCharger ⟨true, true, 20, 80, 100⟩ initialChargerState
        (some 10) none 1000 (.httpError 500)).1 = initialChargerState ∧
    ∃ k, Event.email k ∈ (controlBatteryCharger ⟨true, true, 20, 80, 100⟩
        initialChargerState (some 10) none 1000 (.httpError 500)).2 ∧
      failureEmail k = true :=
  ⟨(charger_failure_c3 ⟨true, true, 20, 80, 100⟩ initialChargerState
      (some 10) none 1000 (.httpError 500) (Or.inr ⟨500, rfl⟩)).1,
    (charger_failure_c3 ⟨true, true, 20, 80, 100⟩ initialChargerState
      (some 10) none 1000 (.httpError 500) (Or.inr ⟨500, rfl⟩)).2.2
      "battery_low" (by decide)⟩

lemma runCharger_onNeedsOff (s : ChargerSettings) :
    ∀ (inputs : List ChargerInput) (st : ChargerState), st.isOn = true →
      ∀ i inp evs, (runCharger s st inputs).2.get? i = some (inp, evs) →
        Event.fetchTrigger "battery_low" ∈ evs →
        ∃ j inp2 evs2, j < i ∧ (runCharger s st inputs).2.get? j = some (inp2, evs2) ∧
          ∃ v, inp2.soc = some v ∧ s.highThreshold ≤ v := by
  intro inputs
  induction inputs with
  | nil => intro st _ i inp evs hget _; simp [runCharger] at hget
  | cons inp0 rest ih =>
      intro st hOn i inp evs hget hmem
      simp only [runCharger] at hget ⊢
      cases i with
      | zero =>
          simp only [List.get?_cons_zero, Option.some_inj] at hget
          have h0 : Event.fetchTrigger "battery_low" ∈
              (controlBatteryCharger s st inp0.soc inp0.batteryTemp inp0.now
                inp0.fetch).2 := by
            have hevs : (controlBatteryCharger s st inp0.soc inp0.batteryTemp
                inp0.now inp0.fetch).2 = evs := congrArg Prod.snd hget
            rw [hevs]
            exact hmem
          have := chargerLowTrigger s st inp0.soc inp0.batteryTemp inp0.now
            inp0.fetch h0
          rw [hOn] at this
          cases this
      | succ j =>
          simp only [List.get?_cons_succ] at hget
          by_cases hOn1 : (controlBatteryCharger s st inp0.soc inp0.batteryTemp
              inp0.now inp0.fetch).1.isOn = true
          · obtain ⟨j2, inp2, evs2, hlt, hget2, hv⟩ :=
              ih (controlBatteryCharger s st inp0.soc inp0.batteryTemp inp0.now
                inp0.fetch).1 hOn1 j inp evs hget hmem
            exact ⟨j2 + 1, inp2, evs2, Nat.succ_lt_succ hlt, by
              simpa [List.get?_cons_succ] using hget2, hv⟩
          · have hOff : (controlBatteryCharger s st inp0.soc inp0.batteryTemp
                inp0.now inp0.fetch).1.isOn = false := by
              simpa using hOn1
            obtain ⟨v, hv1, hv2⟩ := chargerOffFlip s st inp0.soc inp0.batteryTemp
              inp0.now inp0.fetch hOn hOff
            exact ⟨0, inp0,
              (controlBatteryCharger s st inp0.soc inp0.batteryTemp inp0.now
                inp0.fetch).2,
              Nat.succ_pos j, rfl, v, hv1, hv2⟩

/-- Claim C4: with a reloaded `chargerState.isOn = true`, an eligible low
SOC sample sends no `battery_low` trigger (first conjunct: a single
evaluation from an ON state never emits `battery_low`), and over any
subsequent sample sequence a `battery_low` trigger can only occur
strictly after some sample satisfying the OFF condition
`soc ≥ highThreshold` (second conjunct). -/
theorem charger_noDuplicateOn_c4 :
    (∀ (s : ChargerSettings) (st : ChargerState) (soc temp : Option ℚ)
        (now : Nat) (f : FetchOutcome), st.isOn = true →
      Event.fetchTrigger "battery_low" ∉
        (controlBatteryCharger s st soc temp now f).2) ∧
    (∀ (s : ChargerSettings) (st : ChargerState) (inputs : List ChargerInput),
      st.isOn = true →
      ∀ i inp evs, (runCharger s st inputs).2.get? i = some (inp, evs) →
        Event.fetchTrigger "battery_low" ∈ evs →
        ∃ j inp2 evs2, j < i ∧
          (runCharger s st inputs).2.get? j = some (inp2, evs2) ∧
          ∃ v, inp2.soc = some v ∧ s.highThreshold ≤ v) := by
  constructor
  · intro s st soc temp now f hOn hmem
    have := chargerLowTrigger s st soc temp now f hmem
    rw [hOn] at this
    cases this
  · intro s st inputs hOn
    exact runCharger_onNeedsOff s inputs st hOn

/-- Witness for C4: starting ON, a low sample sends nothing; in a run
whose second sample first satisfies the OFF condition (SOC 90 ≥ 80), the
`battery_low` trigger of the third sample is preceded by that sample. -/
theorem charger_noDuplicateOn_c4_witness :
    Event.fetchTrigger "battery_low" ∉
      (controlBatteryCharger ⟨true, true, 20, 80, 100⟩
        ⟨true, some "ON", none, none⟩ (some 10) none 1000 .ok).2 ∧
    ∃ j inp2 evs2, j < 2 ∧
      (runCharger ⟨true, true, 20, 80, 100⟩ ⟨true, some "ON", none, none⟩
        [⟨some 50, none, 1000, .ok⟩, ⟨some 90, none, 2000, .ok⟩,
         ⟨some 10, none, 302001, .ok⟩]).2.get? j = some (inp2, evs2) ∧
      ∃ v, inp2.soc = some v ∧ (80 : ℚ) ≤ v :=
  ⟨charger_noDuplicateOn_c4.1 ⟨true, true, 20, 80, 100⟩
      ⟨true, some "ON", none, none⟩ (some 10) none 1000 .ok rfl,
    charger_noDuplicateOn_c4.2 ⟨true, true, 20, 80, 100⟩
      ⟨true, some "ON", none, none⟩
      [⟨some 50, none, 1000, .ok⟩, ⟨some 90, none, 2000, .ok⟩,
       ⟨some 10, none, 302001, .ok⟩] rfl 2
      ⟨some 10, none, 302001, .ok⟩
      [.fetchTrigger "battery_low", .commitCharger, .email .chargerOnOk]
      (by decide) (by decide)⟩

lemma stepTraces_cons (p : AlertInput × List Event)
    (steps : List (AlertInput × List Event)) :
    stepTraces (p :: steps) = p.2 ++ stepTraces steps := rfl

lemma alertEmailKinds_append (l1 l2 : List Event) :
    alertEmailKinds (l1 ++ l2) = alertEmailKinds l1 ++ alertEmailKinds l2 := by
  simp [alertEmailKinds]

lemma checkBatteryAlerts_altFrom (s : AlertSettings) (ast : AlertState)
    (soc : Option ℚ) (now : Nat) :
    altFrom ast.belowThreshold
      (alertEmailKinds (checkBatteryAlerts s ast soc now).2)
      (checkBatteryAlerts s ast soc now).1.belowThreshold := by
  unfold checkBatteryAlerts
  by_cases h1 : s.enabled = false
  · simp [h1, alertEmailKinds, altFrom]
  · cases soc with
    | none => simp [h1, alertEmailKinds, altFrom]
    | some v =>
      by_cases h2 : ast.belowThreshold = false ∧ v < s.lowThreshold
      · by_cases h3 : s.highThreshold < v
        · simp [h1, h2, h3, alertEmailKinds, altFrom, h2.1]
        · simp [h1, h2, h3, alertEmailKinds, altFrom, h2.1]
      · by_cases h3 : ast.belowThreshold = true ∧ s.highThreshold < v
        · simp [h1, h2, h3, alertEmailKinds, altFrom, h3.1]
        · simp [h1, h2, h3, alertEmailKinds, altFrom]

lemma altFrom_append :
    ∀ (l1 : List EmailKind) (b c d : Bool) (l2 : List EmailKind),
      altFrom b l1 c → altFrom c l2 d → altFrom b (l1 ++ l2) d := by
  intro l1
  induction l1 with
  | nil =>
      intro b c d l2 h1 h2
      simp only [altFrom] at h1
      subst h1
      simpa using h2
  | cons k rest ih =>
      intro b c d l2 h1 h2
      simp only [altFrom] at h1 ⊢
      exact ⟨h1.1, ih _ _ _ _ h1.2 h2⟩

lemma runAlerts_altFrom (s : AlertSettings) :
    ∀ (inputs : List AlertInput) (ast : AlertState),
      altFrom ast.belowThreshold
        (alertEmailKinds (stepTraces (runAlerts s ast inputs).2))
        (runAlerts s ast inputs).1.belowThreshold := by
  intro inputs
  induction inputs with
  | nil => intro ast; simp [runAlerts, stepTraces, alertEmailKinds, altFrom]
  | cons inp rest ih =>
      intro ast
      simp only [runAlerts]
      rw [stepTraces_cons, alertEmailKinds_append]
      exact altFrom_append _ _ _ _ _
        (checkBatteryAlerts_altFrom s ast inp.soc inp.now)
        (ih (checkBatteryAlerts s ast inp.soc inp.now).1)

lemma altFrom_noTwoLows :
    ∀ (l : List EmailKind) (b b2 : Bool), altFrom b l b2 →
      List.Chain' (fun a c => ¬(a = EmailKind.alertLow ∧ c = EmailKind.alertLow)) l := by
  intro l
  induction l with
  | nil => intro b b2 _; simp
  | cons k rest ih =>
      intro b b2 h
      simp only [altFrom] at h
      obtain ⟨hk, htail⟩ := h
      cases rest with
      | nil => simp
      | cons k2 rest2 =>
          simp only [altFrom] at htail
          refine List.chain'_cons.mpr ⟨?_, ih (!b) b2 (by simp only [altFrom]; exact htail)⟩
          rintro ⟨hlow1, hlow2⟩
          cases b
          · rw [hlow2] at htail
            simp at htail
          · rw [hlow1] at hk
            simp at hk

/-- Claim C5: from `belowThreshold = false` with thresholds 50/80, the SOC
sequence [60,40,35,45,85,30] produces per-sample alert emails
[[], [low], [], [], [recovered], [low]] — one low at 40, nothing at 35 or
45, one recovered at 85, a second low at 30 — and in general a run of the
alert engine never emits two low notifications without an intervening
recovered one. -/
theorem alerts_hysteresis_c5 :
    ((runAlerts ⟨true, 50, 80⟩ ⟨false, none, none⟩
        [⟨some 60, 0⟩, ⟨some 40, 1⟩, ⟨some 35, 2⟩, ⟨some 45, 3⟩, ⟨some 85, 4⟩,
         ⟨some 30, 5⟩]).2.map fun p => alertEmailKinds p.2) =
      [[], [.alertLow], [], [], [.alertRecovered], [.alertLow]] ∧
    (∀ (s : AlertSettings) (ast : AlertState) (inputs : List AlertInput),
      ast.belowThreshold = false →
      List.Chain' (fun a c => ¬(a = EmailKind.alertLow ∧ c = EmailKind.alertLow))
        (alertEmailKinds (stepTraces (runAlerts s ast inputs).2))) := by
  constructor
  · decide
  · intro s ast inputs _
    exact altFrom_noTwoLows _ _ _ (runAlerts_altFrom s inputs ast)

/-- Witness for C5: the no-adjacent-lows chain holds for the concrete
six-sample run of the claim. -/
theorem alerts_hysteresis_c5_witness :
    (false = false) ∧
    List.Chain' (fun a c => ¬(a = EmailKind.alertLow ∧ c = EmailKind.alertLow))
      (alertEmailKinds (stepTraces (runAlerts ⟨true, 50, 80⟩ ⟨false, none, none⟩
        [⟨some 60, 0⟩, ⟨some 40, 1⟩, ⟨some 35, 2⟩, ⟨some 45, 3⟩, ⟨some 85, 4⟩,
         ⟨some 30, 5⟩]).2)) :=
  ⟨rfl, alerts_hysteresis_c5.2 ⟨true, 50, 80⟩ ⟨false, none, none⟩
    [⟨some 60, 0⟩, ⟨some 40, 1⟩, ⟨some 35, 2⟩, ⟨some 45, 3⟩, ⟨some 85, 4⟩,
     ⟨some 30, 5⟩] rfl⟩

/-- Claim C6, counterexample: on the threshold-crossing SOC sample 40
(thresholds 50/80, alerts enabled, state not below), the alert engine's
effect trace commits the `belowThreshold` transition and appends to the
alert history before the outbound email call, so the claim that the
transition is committed only after the email outcome is known is false. -/
theorem awaitBeforeCommit_c6_counterexample :
    alertCommitsAfterEmail
      (checkBatteryAlerts ⟨true, 50, 80⟩ ⟨false, none, none⟩ (some 40) 0).2 =
      false := by decide

/-- Claim C6, amended: the control loop does await the actuator webhook
result before committing the charger state transition (every
`commitCharger` is preceded by the fetch), but the alert engine commits
its `belowThreshold` transition and alert-history append before the
outbound email call is made (every alert email is preceded by the commit
and the append). -/
theorem awaitBeforeCommit_c6_amended :
    (∀ (s : ChargerSettings) (st : ChargerState) (soc temp : Option ℚ)
        (now : Nat) (f : FetchOutcome),
      chargerCommitsAfterTrigger
        (controlBatteryCharger s st soc temp now f).2 = true) ∧
    (∀ (s : AlertSettings) (ast : AlertState) (soc : Option ℚ) (now : Nat),
      alertEmailAfterCommit (checkBatteryAlerts s ast soc now).2 = true) := by
  constructor
  · intro s st soc temp now f
    unfold controlBatteryCharger
    by_cases h1 : (s.enabled && s.hasWebhookKey) = false
    · simp [h1, chargerCommitsAfterTrigger, chargerCommitAfterTriggerScan]
    · cases soc with
      | none => simp [h1, chargerCommitsAfterTrigger, chargerCommitAfterTriggerScan]
      | some v =>
        by_cases h2 : tempTooHigh s temp = true
        · simp [h1, h2, chargerCommitsAfterTrigger, chargerCommitAfterTriggerScan]
        · by_cases h3 : cooldownActive st now = true
          · simp [h1, h2, h3, chargerCommitsAfterTrigger, chargerCommitAfterTriggerScan]
          · by_cases h4 : v ≤ s.lowThreshold ∧ st.isOn = false
            · cases f <;>
                simp [h1, h2, h3, h4, chargerCommitsAfterTrigger,
                  chargerCommitAfterTriggerScan]
            · by_cases h5 : s.highThreshold ≤ v ∧ st.isOn = true
              · cases f <;>
                  simp [h1, h2, h3, h4, h5, chargerCommitsAfterTrigger,
                    chargerCommitAfterTriggerScan]
              · simp [h1, h2, h3, h4, h5, chargerCommitsAfterTrigger,
                  chargerCommitAfterTriggerScan]
  · intro s ast soc now
    unfold checkBatteryAlerts
    by_cases h1 : s.enabled = false
    · simp [h1, alertEmailAfterCommit, alertEmailAfterCommitScan]
    · cases soc with
      | none => simp [h1, alertEmailAfterCommit, alertEmailAfterCommitScan]
      | some v =>
        by_cases h2 : ast.belowThreshold = false ∧ v < s.lowThreshold
        · by_cases h3 : s.highThreshold < v
          · simp [h1, h2, h3, alertEmailAfterCommit, alertEmailAfterCommitScan]
          · simp [h1, h2, h3, alertEmailAfterCommit, alertEmailAfterCommitScan]
        · by_cases h3 : ast.belowThreshold = true ∧ s.highThreshold < v
          · simp [h1, h2, h3, alertEmailAfterCommit, alertEmailAfterCommitScan]
          · simp [h1, h2, h3, alertEmailAfterCommit, alertEmailAfterCommitScan]

lemma arch_notAppended (st : ArchiveState) (topic : String) (value : Option ℚ)
    (ts now : Nat)
    (h : (addHistoricalDataPoint st topic value ts now).2 = false) :
    (addHistoricalDataPoint st topic value ts now).1 = st := by
  unfold addHistoricalDataPoint at h ⊢
  by_cases h1 : topic ∈ TRACKED_TOPICS
  · by_cases h2 : now - st.lastArchivedTime topic < ARCHIVE_INTERVAL
    · simp [h1, h2]
    · cases value with
      | none => simp [h1, h2]
      | some v => simp [h1, h2] at h
  · simp [h1]

lemma arch_appended (st : ArchiveState) (topic : String) (value : Option ℚ)
    (ts now : Nat)
    (h : (addHistoricalDataPoint st topic value ts now).2 = true) :
    topic ∈ TRACKED_TOPICS ∧
    ¬(now - st.lastArchivedTime topic < ARCHIVE_INTERVAL) ∧
    ∃ v, value = some v ∧
      (addHistoricalDataPoint st topic value ts now).1.lastArchivedTime =
        Function.update st.lastArchivedTime topic now ∧
      (addHistoricalDataPoint st topic value ts now).1.historicalData =
        Function.update st.historicalData topic
          (if 10000 < (st.historicalData topic ++ [Point.mk ts v]).length
           then (st.historicalData topic ++ [Point.mk ts v]).tail
           else st.historicalData topic ++ [Point.mk ts v]) := by
  unfold addHistoricalDataPoint at h ⊢
  by_cases h1 : topic ∈ TRACKED_TOPICS
  · by_cases h2 : now - st.lastArchivedTime topic < ARCHIVE_INTERVAL
    · simp [h1, h2] at h
    · cases value with
      | none => simp [h1, h2] at h
      | some v => exact ⟨h1, h2, v, rfl, by simp [h1, h2], by simp [h1, h2]⟩
  · simp [h1] at h

lemma sorted_map_tail {l : List Point}
    (h : List.Sorted (· ≤ ·) (l.map Point.timestamp)) :
    List.Sorted (· ≤ ·) (l.tail.map Point.timestamp) := by
  cases l with
  | nil => simp
  | cons a l2 =>
      simp only [List.tail_cons]
      simp only [List.map_cons] at h
      exact h.of_cons

lemma runArchive_sorted (topic : String) :
    ∀ (inputs : List IngestEvent) (st : ArchiveState),
      List.Sorted (· ≤ ·) (inputs.map IngestEvent.timestamp) →
      (∀ p ∈ st.historicalData topic, ∀ e ∈ inputs, p.timestamp ≤ e.timestamp) →
      List.Sorted (· ≤ ·) ((st.historicalData topic).map Point.timestamp) →
      List.Sorted (· ≤ ·)
        (((runArchive st inputs).1.historicalData topic).map Point.timestamp) := by
  intro inputs
  induction inputs with
  | nil => intro st _ _ h3; simpa [runArchive] using h3
  | cons e rest ih =>
      intro st h1 h2 h3
      simp only [List.map_cons] at h1
      have h1rest := h1.of_cons
      have h1head := List.rel_of_sorted_cons h1
      simp only [runArchive]
      by_cases happ : (addHistoricalDataPoint st e.topic e.value e.timestamp e.now).2 = true
      · obtain ⟨htrk, hthr, v, hv, hlaw, hhd⟩ :=
          arch_appended st e.topic e.value e.timestamp e.now happ
        by_cases htop : e.topic = topic
        · subst htop
          have hsortedGrown : List.Sorted (· ≤ ·)
              ((st.historicalData e.topic ++ [Point.mk e.timestamp v]).map Point.timestamp) := by
            rw [List.map_append]
            refine List.pairwise_append.mpr ⟨h3, by simp, ?_⟩
            intro a ha b hb
            simp only [List.map_cons, List.map_nil, List.mem_singleton] at hb
            subst hb
            obtain ⟨p, hp, hpa⟩ := List.mem_map.mp ha
            rw [← hpa]
            exact h2 p hp e (by simp)
          apply ih
          · exact h1rest
          · intro p hp e2 he2
            rw [hhd, Function.update_same] at hp
            have hpg : p ∈ st.historicalData e.topic ++ [Point.mk e.timestamp v] := by
              by_cases hlen :
                  10000 < (st.historicalData e.topic ++ [Point.mk e.timestamp v]).length
              · rw [if_pos hlen] at hp; exact List.mem_of_mem_tail hp
              · rw [if_neg hlen] at hp; exact hp
            rcases List.mem_append.mp hpg with hpo | hpn
            · exact h2 p hpo e2 (by simp [he2])
            · have hpe : p = Point.mk e.timestamp v := by simpa using hpn
              rw [hpe]
              exact h1head e2.timestamp (List.mem_map.mpr ⟨e2, he2, rfl⟩)
          · rw [hhd, Function.update_same]
            by_cases hlen :
                10000 < (st.historicalData e.topic ++ [Point.mk e.timestamp v]).length
            · rw [if_pos hlen]; exact sorted_map_tail hsortedGrown
            · rw [if_neg hlen]; exact hsortedGrown
        · apply ih
          · exact h1rest
          · intro p hp e2 he2
            rw [hhd, Function.update_noteq (Ne.symm htop)] at hp
            exact h2 p hp e2 (by simp [he2])
          · rw [hhd, Function.update_noteq (Ne.symm htop)]
            exact h3
      · have hfalse : (addHistoricalDataPoint st e.topic e.value e.timestamp e.now).2 =
            false := by simpa using happ
        have hst := arch_notAppended st e.topic e.value e.timestamp e.now hfalse
        rw [hst]
        exact ih st h1rest (fun p hp e2 he2 => h2 p hp e2 (by simp [he2])) h3

lemma archiveTimes_cons (topic : String) (e : IngestEvent) (log : List IngestEvent) :
    archiveTimes topic (e :: log) =
      if e.topic = topic then e.now :: archiveTimes topic log
      else archiveTimes topic log := by
  by_cases h : e.topic = topic <;> simp [archiveTimes, List.filter_cons, h]

lemma runArchive_gapAux (topic : String) :
    ∀ (inputs : List IngestEvent) (st : ArchiveState),
      List.Chain' (fun a b => a + ARCHIVE_INTERVAL ≤ b)
        (st.lastArchivedTime topic :: archiveTimes topic (runArchive st inputs).2) := by
  intro inputs
  induction inputs with
  | nil => intro st; simp [runArchive, archiveTimes]
  | cons e rest ih =>
      intro st
      simp only [runArchive]
      by_cases happ : (addHistoricalDataPoint st e.topic e.value e.timestamp e.now).2 = true
      · obtain ⟨htrk, hthr, v, hv, hlaw, hhd⟩ :=
          arch_appended st e.topic e.value e.timestamp e.now happ
        simp only [happ, if_true, List.singleton_append]
        rw [archiveTimes_cons]
        by_cases htop : e.topic = topic
        · subst htop
          rw [if_pos rfl]
          have hgap : st.lastArchivedTime e.topic + ARCHIVE_INTERVAL ≤ e.now := by
            simp only [ARCHIVE_INTERVAL] at hthr ⊢
            omega
          have ihr := ih (addHistoricalDataPoint st e.topic e.value e.timestamp e.now).1
          rw [hlaw, Function.update_same] at ihr
          exact List.chain'_cons.mpr ⟨hgap, ihr⟩
        · rw [if_neg htop]
          have ihr := ih (addHistoricalDataPoint st e.topic e.value e.timestamp e.now).1
          rw [hlaw, Function.update_noteq (Ne.symm htop)] at ihr
          exact ihr
      · have hfalse : (addHistoricalDataPoint st e.topic e.value e.timestamp e.now).2 =
            false := by simpa using happ
        have hst := arch_notAppended st e.topic e.value e.timestamp e.now hfalse
        simp only [hfalse, if_false, List.nil_append]
        rw [hst]
        exact ih st

/-- Claim C7: feeding any sequence of ingestion events whose
handler-assigned timestamps are non-decreasing through the archival path,
each tracked metric's archived series stays non-decreasing in timestamp,
and the wall-clock archive times of the appended points (the per-metric
`lastArchivedTime` watermark values) are pairwise at least
`ARCHIVE_INTERVAL` = 60000 ms apart — at most one point per interval per
metric, gated by the watermark, not by the sample timestamp. -/
theorem archive_throttle_c7 (inputs : List IngestEvent) (topic : String)
    (hts : List.Sorted (· ≤ ·) (inputs.map IngestEvent.timestamp)) :
    List.Sorted (· ≤ ·)
      (((runArchive initialArchiveState inputs).1.historicalData topic).map
        Point.timestamp) ∧
    List.Chain' (fun a b => a + ARCHIVE_INTERVAL ≤ b)
      (archiveTimes topic (runArchive initialArchiveState inputs).2) := by
  constructor
  · exact runArchive_sorted topic inputs initialArchiveState hts
      (by intro p hp; simp [initialArchiveState] at hp)
      (by simp [initialArchiveState])
  · exact (runArchive_gapAux topic inputs initialArchiveState).tail

/-- Witness for C7: a concrete three-event burst on the battery-power
topic (the second event arrives 30 s after the first and is throttled
away, the third 60 s after) yields a sorted series and ≥ 60 s archive
gaps. -/
theorem archive_throttle_c7_witness :
    List.Sorted (· ≤ ·)
      (((runArchive initialArchiveState
        [⟨"solar_assistant/total/battery_power/state", some 100, 1000, 1000⟩,
         ⟨"solar_assistant/total/battery_power/state", some 200, 31000, 31000⟩,
         ⟨"solar_assistant/total/battery_power/state", some 300, 61000, 61000⟩]).1.historicalData
        "solar_assistant/total/battery_power/state").map Point.timestamp) ∧
    List.Chain' (fun a b => a + ARCHIVE_INTERVAL ≤ b)
      (archiveTimes "solar_assistant/total/battery_power/state"
        (runArchive initialArchiveState
          [⟨"solar_assistant/total/battery_power/state", some 100, 1000, 1000⟩,
           ⟨"solar_assistant/total/battery_power/state", some 200, 31000, 31000⟩,
           ⟨"solar_assistant/total/battery_power/state", some 300, 61000, 61000⟩]).2) :=
  archive_throttle_c7
    [⟨"solar_assistant/total/battery_power/state", some 100, 1000, 1000⟩,
     ⟨"solar_assistant/total/battery_power/state", some 200, 31000, 31000⟩,
     ⟨"solar_assistant/total/battery_power/state", some 300, 61000, 61000⟩]
    "solar_assistant/total/battery_power/state" (by decide)


lemma thirty_le_div_iff (x : Nat) : 30 ≤ x / 60000 ↔ 1800000 ≤ x := by
  rw [Nat.le_div_iff_mul_le (by norm_num : 0 < 60000)]

lemma sustains_elim {inp : PeakInput} (h : sustainsEpisode inp = true) :
    isWithinPeakHours inp.clock.month inp.clock.hour inp.clock.minute = true ∧
    ∃ p, inp.batteryPower = some p ∧ p < -50 := by
  unfold sustainsEpisode at h
  cases hbp : inp.batteryPower with
  | none => rw [hbp] at h; simp at h
  | some p =>
      rw [hbp] at h
      simp only [Bool.and_eq_true, decide_eq_true_eq] at h
      exact ⟨h.1, p, rfl, h.2⟩

lemma runPeak_nil (en : Bool) (st : PeakState) : runPeak en st [] = (st, []) := rfl

lemma runPeak_cons (en : Bool) (st : PeakState) (inp : PeakInput)
    (rest : List PeakInput) :
    runPeak en st (inp :: rest) =
      ((runPeak en (monitorPeakDischarge en st inp.batteryPower inp.clock).1 rest).1,
       (monitorPeakDischarge en st inp.batteryPower inp.clock).2 ++
         (runPeak en (monitorPeakDischarge en st inp.batteryPower inp.clock).1 rest).2) :=
  rfl

lemma peak_start (st : PeakState) (p : ℚ) (clock : ClockTime)
    (hdis : st.isDischarging = false)
    (hw : isWithinPeakHours clock.month clock.hour clock.minute = true)
    (hp : p < -50) :
    monitorPeakDischarge true st (some p) clock =
      (⟨true, some clock.nowMs, false, st.lastAlertTime⟩, []) := by
  unfold monitorPeakDischarge
  simp [hw, hp, hdis]

lemma peak_noFire (st : PeakState) (p : ℚ) (clock : ClockTime)
    (hdis : st.isDischarging = true)
    (hw : isWithinPeakHours clock.month clock.hour clock.minute = true)
    (hp : p < -50)
    (hcond : ¬(30 ≤ (clock.nowMs - st.dischargeStartTime.getD 0) / 60000 ∧
      st.alertSent = false)) :
    monitorPeakDischarge true st (some p) clock = (st, []) := by
  unfold monitorPeakDischarge
  simp [hw, hp, hdis, hcond]

lemma peak_fire (st : PeakState) (p : ℚ) (clock : ClockTime)
    (hdis : st.isDischarging = true)
    (hw : isWithinPeakHours clock.month clock.hour clock.minute = true)
    (hp : p < -50)
    (hdur : 30 ≤ (clock.nowMs - st.dischargeStartTime.getD 0) / 60000)
    (hsent : st.alertSent = false) :
    monitorPeakDischarge true st (some p) clock =
      (⟨st.isDischarging, st.dischargeStartTime, true, some clock.nowMs⟩,
       [Event.email .peakDischarge, Event.historyAppend]) := by
  unfold monitorPeakDischarge
  simp [hw, hp, hdis, hdur, hsent]

lemma peak_reset (st : PeakState) (p : ℚ) (clock : ClockTime)
    (hdis : st.isDischarging = true)
    (hnot : ¬(isWithinPeakHours clock.month clock.hour clock.minute = true ∧
      p < -50)) :
    monitorPeakDischarge true st (some p) clock =
      (⟨false, none, false, st.lastAlertTime⟩, []) := by
  unfold monitorPeakDischarge
  simp [hnot, hdis]

lemma runPeak_append (en : Bool) :
    ∀ (l1 l2 : List PeakInput) (st : PeakState),
      runPeak en st (l1 ++ l2) =
        ((runPeak en (runPeak en st l1).1 l2).1,
         (runPeak en st l1).2 ++ (runPeak en (runPeak en st l1).1 l2).2) := by
  intro l1
  induction l1 with
  | nil => intro l2 st; simp [runPeak]
  | cons x l1' ih =>
      intro l2 st
      rw [List.cons_append]
      simp only [runPeak_cons, ih]
      simp [List.append_assoc]

lemma peak_episode_short :
    ∀ (inputs : List PeakInput) (t0 : Nat) (sent : Bool) (la : Option Nat),
      (∀ inp ∈ inputs, sustainsEpisode inp = true) →
      (∀ inp ∈ inputs, inp.clock.nowMs - t0 < 1800000) →
      runPeak true ⟨true, some t0, sent, la⟩ inputs =
        (⟨true, some t0, sent, la⟩, []) := by
  intro inputs
  induction inputs with
  | nil => intro t0 sent la _ _; rfl
  | cons inp rest ih =>
      intro t0 sent la hsus hshort
      obtain ⟨hw, p, hp, hplt⟩ := sustains_elim (hsus inp (by simp))
      have hstep : monitorPeakDischarge true ⟨true, some t0, sent, la⟩
          inp.batteryPower inp.clock = (⟨true, some t0, sent, la⟩, []) := by
        rw [hp]
        apply peak_noFire _ _ _ rfl hw hplt
        rintro ⟨hge, _⟩
        rw [Option.getD_some] at hge
        have hlt := hshort inp (by simp)
        rw [thirty_le_div_iff] at hge
        omega
      rw [runPeak_cons, hstep]
      dsimp only
      rw [ih t0 sent la (fun i hi => hsus i (by simp [hi]))
        (fun i hi => hshort i (by simp [hi]))]
      simp

def peakBound (st : PeakState) : Nat :=
  if st.isDischarging = true ∧ st.alertSent = true then 0 else 1

lemma peak_count_le :
    ∀ (inputs : List PeakInput) (st : PeakState),
      (∀ inp ∈ inputs, sustainsEpisode inp = true) →
      List.count (Event.email .peakDischarge) (runPeak true st inputs).2 ≤
        peakBound st := by
  intro inputs
  induction inputs with
  | nil => intro st _; simp [runPeak]
  | cons inp rest ih =>
      intro st hsus
      obtain ⟨hw, p, hp, hplt⟩ := sustains_elim (hsus inp (by simp))
      have hsus' : ∀ i ∈ rest, sustainsEpisode i = true :=
        fun i hi => hsus i (by simp [hi])
      rw [runPeak_cons, hp]
      by_cases hdis : st.isDischarging = true
      · by_cases hfire : 30 ≤ (inp.clock.nowMs - st.dischargeStartTime.getD 0) / 60000 ∧
            st.alertSent = false
        · rw [peak_fire st p inp.clock hdis hw hplt hfire.1 hfire.2]
          dsimp only
          rw [List.count_append]
          have hrest := ih ⟨st.isDischarging, st.dischargeStartTime, true,
            some inp.clock.nowMs⟩ hsus'
          have hb0 : peakBound ⟨st.isDischarging, st.dischargeStartTime, true,
              some inp.clock.nowMs⟩ = 0 := by simp [peakBound, hdis]
          rw [hb0] at hrest
          have hbst : peakBound st = 1 := by simp [peakBound, hfire.2]
          rw [hbst]
          have hcnt : List.count (Event.email .peakDischarge)
              [Event.email .peakDischarge, Event.historyAppend] = 1 := by decide
          rw [hcnt]
          omega
        · rw [peak_noFire st p inp.clock hdis hw hplt hfire]
          dsimp only
          rw [List.nil_append]
          exact ih st hsus'
      · have hdis' : st.isDischarging = false := by simpa using hdis
        rw [peak_start st p inp.clock hdis' hw hplt]
        dsimp only
        rw [List.nil_append]
        have hrest := ih ⟨true, some inp.clock.nowMs, false, st.lastAlertTime⟩ hsus'
        have hb1 : peakBound ⟨true, some inp.clock.nowMs, false, st.lastAlertTime⟩ = 1 := by
          simp [peakBound]
        rw [hb1] at hrest
        have hbst : peakBound st = 1 := by simp [peakBound, hdis']
        rw [hbst]
        exact hrest

lemma peak_fire_eventually :
    ∀ (inputs : List PeakInput) (t0 : Nat) (la : Option Nat),
      (∀ inp ∈ inputs, sustainsEpisode inp = true) →
      (∃ inp ∈ inputs, 1800000 ≤ inp.clock.nowMs - t0) →
      List.count (Event.email .peakDischarge)
        (runPeak true ⟨true, some t0, false, la⟩ inputs).2 = 1 := by
  intro inputs
  induction inputs with
  | nil => intro t0 la _ hex; simp at hex
  | cons inp rest ih =>
      intro t0 la hsus hex
      obtain ⟨hw, p, hp, hplt⟩ := sustains_elim (hsus inp (by simp))
      have hsus' : ∀ i ∈ rest, sustainsEpisode i = true :=
        fun i hi => hsus i (by simp [hi])
      rw [runPeak_cons, hp]
      by_cases hdur : 1800000 ≤ inp.clock.nowMs - t0
      · rw [peak_fire ⟨true, some t0, false, la⟩ p inp.clock rfl hw hplt
          (by rw [Option.getD_some, thirty_le_div_iff]; exact hdur) rfl]
        dsimp only
        rw [List.count_append]
        have hrest := peak_count_le rest ⟨true, some t0, true, some inp.clock.nowMs⟩
          hsus'
        have hb0 : peakBound ⟨true, some t0, true, some inp.clock.nowMs⟩ = 0 := by
          simp [peakBound]
        rw [hb0] at hrest
        have hcnt : List.count (Event.email .peakDischarge)
            [Event.email .peakDischarge, Event.historyAppend] = 1 := by decide
        rw [hcnt]
        omega
      · rw [peak_noFire ⟨true, some t0, false, la⟩ p inp.clock rfl hw hplt
          (by rintro ⟨hge, _⟩
              rw [Option.getD_some, thirty_le_div_iff] at hge
              exact hdur hge)]
        dsimp only
        rw [List.nil_append]
        have hex' : ∃ i ∈ rest, 1800000 ≤ i.clock.nowMs - t0 := by
          obtain ⟨w, hw1, hw2⟩ := hex
          rcases List.mem_cons.mp hw1 with hwi | hwr
          · subst hwi; exact absurd hw2 hdur
          · exact ⟨w, hwr, hw2⟩
        exact ih t0 la hsus' hex'

/-- Claim C8: inside the seasonal peak window, (1) a discharge episode
whose samples all lie strictly under 30 minutes (in particular exactly 29
minutes) after its start, followed by a recovery sample, raises no alert
and leaves a fully reset episode state (no duration carryover); (2) an
episode containing a sample at ≥ 30 minutes (in particular 31 minutes)
raises exactly one alert; (3) starting outside an episode at most one
alert can ever be raised per episode (`alertSent` suppresses a second);
(4) a parseable sample outside the window or at or above -50 W resets an
active episode, emitting nothing. -/
theorem peakDischarge_episode_c8 :
    (∀ (st0 : PeakState) (e0 : PeakInput) (inputs : List PeakInput)
        (rec : PeakInput),
      st0.isDischarging = false →
      sustainsEpisode e0 = true →
      (∀ inp ∈ inputs, sustainsEpisode inp = true) →
      (∀ inp ∈ inputs, inp.clock.nowMs - e0.clock.nowMs < 1800000) →
      (∃ p, rec.batteryPower = some p ∧
        ¬(isWithinPeakHours rec.clock.month rec.clock.hour rec.clock.minute = true ∧
          p < -50)) →
      List.count (Event.email .peakDischarge)
        (runPeak true st0 (e0 :: inputs ++ [rec])).2 = 0 ∧
      (runPeak true st0 (e0 :: inputs ++ [rec])).1 =
        ⟨false, none, false, st0.lastAlertTime⟩) ∧
    (∀ (st0 : PeakState) (e0 : PeakInput) (inputs : List PeakInput),
      st0.isDischarging = false →
      sustainsEpisode e0 = true →
      (∀ inp ∈ inputs, sustainsEpisode inp = true) →
      (∃ inp ∈ inputs, 1800000 ≤ inp.clock.nowMs - e0.clock.nowMs) →
      List.count (Event.email .peakDischarge)
        (runPeak true st0 (e0 :: inputs)).2 = 1) ∧
    (∀ (st0 : PeakState) (inputs : List PeakInput),
      st0.isDischarging = false →
      (∀ inp ∈ inputs, sustainsEpisode inp = true) →
      List.count (Event.email .peakDischarge) (runPeak true st0 inputs).2 ≤ 1) ∧
    (∀ (st : PeakState) (p : ℚ) (clock : ClockTime), st.isDischarging = true →
      ¬(isWithinPeakHours clock.month clock.hour clock.minute = true ∧ p < -50) →
      monitorPeakDischarge true st (some p) clock =
        (⟨false, none, false, st.lastAlertTime⟩, [])) := by
  refine ⟨?_, ?_, ?_, ?_⟩
  · intro st0 e0 inputs rec hdis0 hsus0 hsus hshort hrec
    obtain ⟨hw0, p0, hp0, hplt0⟩ := sustains_elim hsus0
    obtain ⟨pr, hpr, hnr⟩ := hrec
    have hstep0 : monitorPeakDischarge true st0 e0.batteryPower e0.clock =
        (⟨true, some e0.clock.nowMs, false, st0.lastAlertTime⟩, []) := by
      rw [hp0]
      exact peak_start st0 p0 e0.clock hdis0 hw0 hplt0
    have hmid := peak_episode_short inputs e0.clock.nowMs false st0.lastAlertTime
      hsus hshort
    have hstepr : monitorPeakDischarge true
        ⟨true, some e0.clock.nowMs, false, st0.lastAlertTime⟩
        rec.batteryPower rec.clock =
        (⟨false, none, false, st0.lastAlertTime⟩, []) := by
      rw [hpr]
      exact peak_reset _ pr rec.clock rfl hnr
    have hkey : runPeak true st0 (e0 :: inputs ++ [rec]) =
        (⟨false, none, false, st0.lastAlertTime⟩, []) := by
      rw [List.cons_append, runPeak_cons, hstep0]
      dsimp only
      rw [runPeak_append, hmid]
      dsimp only
      rw [runPeak_cons, hstepr]
      dsimp only
      rw [runPeak_nil]
      simp
    rw [hkey]
    exact ⟨by simp, rfl⟩
  · intro st0 e0 inputs hdis0 hsus0 hsus hex
    obtain ⟨hw0, p0, hp0, hplt0⟩ := sustains_elim hsus0
    have hstep0 : monitorPeakDischarge true st0 e0.batteryPower e0.clock =
        (⟨true, some e0.clock.nowMs, false, st0.lastAlertTime⟩, []) := by
      rw [hp0]
      exact peak_start st0 p0 e0.clock hdis0 hw0 hplt0
    rw [runPeak_cons, hstep0]
    dsimp only
    rw [List.nil_append]
    exact peak_fire_eventually inputs e0.clock.nowMs st0.lastAlertTime hsus hex
  · intro st0 inputs hdis0 hsus
    have h := peak_count_le inputs st0 hsus
    have hb : peakBound st0 = 1 := by simp [peakBound, hdis0]
    rw [hb] at h
    exact h
  · intro st p clock hdis hnot
    exact peak_reset st p clock hdis hnot

/-- Witness for C8: with summer month 6 (window 9:30–14:30), a discharge
starting at noon with a follow-up at 29 minutes and a recovery sample
raises no alert, while a follow-up at 31 minutes raises exactly one. -/
theorem peakDischarge_episode_c8_witness :
    List.count (Event.email .peakDischarge)
      (runPeak true ⟨false, none, false, none⟩
        [⟨some (-100), ⟨6, 12, 0, 1000000⟩⟩,
         ⟨some (-100), ⟨6, 12, 29, 2740000⟩⟩,
         ⟨some 0, ⟨6, 12, 30, 2800000⟩⟩]).2 = 0 ∧
    List.count (Event.email .peakDischarge)
      (runPeak true ⟨false, none, false, none⟩
        [⟨some (-100), ⟨6, 12, 0, 1000000⟩⟩,
         ⟨some (-100), ⟨6, 12, 31, 2860000⟩⟩]).2 = 1 :=
  ⟨(peakDischarge_episode_c8.1 ⟨false, none, false, none⟩
      ⟨some (-100), ⟨6, 12, 0, 1000000⟩⟩
      [⟨some (-100), ⟨6, 12, 29, 2740000⟩⟩]
      ⟨some 0, ⟨6, 12, 30, 2800000⟩⟩
      rfl
      (by norm_num [sustainsEpisode, isWithinPeakHours, peakStartHour, peakEndHour,
        getSeasonalPeakDuration, Bool.and_eq_true, decide_eq_true_eq])
      (by intro i hi
          rw [List.mem_singleton] at hi
          subst hi
          norm_num [sustainsEpisode, isWithinPeakHours, peakStartHour, peakEndHour,
            getSeasonalPeakDuration, Bool.and_eq_true, decide_eq_true_eq])
      (by decide)
      ⟨0, rfl, fun h => absurd h.2 (by norm_num)⟩).1,
    peakDischarge_episode_c8.2.1 ⟨false, none, false, none⟩
      ⟨some (-100), ⟨6, 12, 0, 1000000⟩⟩
      [⟨some (-100), ⟨6, 12, 31, 2860000⟩⟩]
      rfl
      (by norm_num [sustainsEpisode, isWithinPeakHours, peakStartHour, peakEndHour,
        getSeasonalPeakDuration, Bool.and_eq_true, decide_eq_true_eq])
      (by intro i hi
          rw [List.mem_singleton] at hi
          subst hi
          norm_num [sustainsEpisode, isWithinPeakHours, peakStartHour, peakEndHour,
            getSeasonalPeakDuration, Bool.and_eq_true, decide_eq_true_eq])
      ⟨⟨some (-100), ⟨6, 12, 31, 2860000⟩⟩, by simp, by decide⟩⟩

lemma jsRound_intCast (x : ℤ) : jsRound (x : ℚ) = x := by
  unfold jsRound
  rw [Int.floor_int_add]
  norm_num

/-- Claim C9: `getPowerBalance` computes
`totalInput = solar + (batteryPower if the charger state is ON and
batteryPower > 0, else 0)` and returns `totalInput - load` (exactly so on
integral watt values, where `Math.round` is the identity); in particular
solar 1000, load 600, battery 200 gives 400 with the charger OFF and 600
with it ON. -/
theorem powerBalance_c9 :
    (∀ (s l bp : ℤ) (chargerIsOn : Bool),
      getPowerBalance (some (s : ℚ)) (some (l : ℚ)) (some (bp : ℚ)) chargerIsOn =
        some (s + (if chargerIsOn = true ∧ 0 < bp then bp else 0) - l)) ∧
    getPowerBalance (some 1000) (some 600) (some 200) false = some 400 ∧
    getPowerBalance (some 1000) (some 600) (some 200) true = some 600 := by
  refine ⟨?_, ?_, ?_⟩
  · intro s l bp chargerIsOn
    cases chargerIsOn with
    | false =>
        simp only [getPowerBalance, Bool.false_and, Bool.false_eq_true, false_and,
          if_false, Option.getD]
        have h1 : (s : ℚ) + 0 - (l : ℚ) = ((s - l : ℤ) : ℚ) := by push_cast; ring
        rw [h1, jsRound_intCast]
        simp
    | true =>
        by_cases hbp : (0 : ℤ) < bp
        · have hbq : (0 : ℚ) < (bp : ℚ) := by exact_mod_cast hbp
          simp only [getPowerBalance, Bool.true_and, hbq, decide_True, if_true,
            Option.getD_some, true_and, hbp, if_pos]
          have h1 : (s : ℚ) + (bp : ℚ) - (l : ℚ) = ((s + bp - l : ℤ) : ℚ) := by
            push_cast; ring
          rw [h1, jsRound_intCast]
        · have hbq : ¬(0 : ℚ) < (bp : ℚ) := by exact_mod_cast hbp
          simp only [getPowerBalance, Bool.true_and, hbq, decide_False, if_false,
            true_and, hbp, Option.getD]
          have h2 : (if false = true then (bp : ℚ) else 0) = 0 := by simp
          rw [h2]
          have h1 : (s : ℚ) + 0 - (l : ℚ) = ((s - l : ℤ) : ℚ) := by push_cast; ring
          rw [h1, jsRound_intCast]
          simp
  · norm_num [getPowerBalance, jsRound]
  · norm_num [getPowerBalance, jsRound]

/-- Claim C10: `loadDailyStats` restores the stored charger state only
when the persisted record's date string equals the current
`toDateString()`; on any other date it resets the charger state to all
defaults, and starting from the module-level initial state the loaded
state can be ON only if a same-day record stored it ON — a persisted ON
state never survives a restart on a later calendar day. -/
theorem loadDailyStats_c10 :
    (∀ (s : SavedDailyStats) (today : String) (cur cs : ChargerState),
      s.date = today → s.chargerState = some cs →
      loadDailyStats (some s) today cur = cs) ∧
    (∀ (s : SavedDailyStats) (today : String) (cur : ChargerState),
      s.date ≠ today →
      loadDailyStats (some s) today cur = ⟨false, none, none, none⟩) ∧
    (∀ (saved : Option SavedDailyStats) (today : String),
      (loadDailyStats saved today initialChargerState).isOn = true →
      ∃ s cs, saved = some s ∧ s.date = today ∧ s.chargerState = some cs ∧
        cs.isOn = true) := by
  refine ⟨?_, ?_, ?_⟩
  · intro s today cur cs hd hcs
    simp only [loadDailyStats]
    rw [if_pos hd, hcs]
  · intro s today cur hd
    simp only [loadDailyStats]
    rw [if_neg hd]
  · intro saved today h
    cases saved with
    | none => simp [loadDailyStats, initialChargerState] at h
    | some s =>
        simp only [loadDailyStats] at h
        by_cases hd : s.date = today
        · rw [if_pos hd] at h
          cases hcs : s.chargerState with
          | none =>
              rw [hcs] at h
              simp [initialChargerState] at h
          | some cs =>
              rw [hcs] at h
              exact ⟨s, cs, rfl, hd, hcs, h⟩
        · rw [if_neg hd] at h
          simp at h

/-- Witness for C10: a same-day record restores the stored ON state; a
record dated one day earlier resets the charger state. -/
theorem loadDailyStats_c10_witness :
    loadDailyStats (some ⟨"Sat Oct 11 2025", some ⟨true, some "ON", some 5, some 30⟩⟩)
      "Sat Oct 11 2025" initialChargerState = ⟨true, some "ON", some 5, some 30⟩ ∧
    loadDailyStats (some ⟨"Fri Oct 10 2025", some ⟨true, some "ON", some 5, some 30⟩⟩)
      "Sat Oct 11 2025" initialChargerState = ⟨false, none, none, none⟩ :=
  ⟨loadDailyStats_c10.1 ⟨"Sat Oct 11 2025", some ⟨true, some "ON", some 5, some 30⟩⟩
      "Sat Oct 11 2025" initialChargerState ⟨true, some "ON", some 5, some 30⟩
      rfl rfl,
    loadDailyStats_c10.2.1 ⟨"Fri Oct 10 2025", some ⟨true, some "ON", some 5, some 30⟩⟩
      "Sat Oct 11 2025" initialChargerState (by decide)⟩

end SolarAssistant

